import Mathlib

/-!
Verification of the SummarizeIt pipeline (src/app.py, src/utils.py) against its
specification.  Strings are modelled as lists of characters, the working
directory as an association list from file names to contents, and the three
external services (video platform, speech-to-text, chat completion) as an
environment of oracles whose calls may raise exceptions.  Each Python function
is translated into a pure Lean function that additionally returns the list of
external calls it performed, and a possibly-exceptional outcome.
-/

namespace SummarizeIt

/-- A Python string, modelled as a list of characters. -/
abbrev Str := List Char

/-- The working directory: an association list from file names to contents. -/
abbrev FS := List (Str × Str)

/-- Whitespace as matched by the regex class backslash-s of re (and by
str.strip) on ASCII input: space, tab, newline, carriage return, vertical
tab, form feed. -/
def isPySpace (c : Char) : Bool :=
  c == ' ' || c == '\t' || c == '\n' || c == '\r' || c == '\x0b' || c == '\x0c'

/-- Whether pat is a prefix of s (Python str.startswith, character by
character). -/
def pyStartswith : Str → Str → Bool
  | [], _ => true
  | _ :: _, [] => false
  | c :: cs, d :: ds => c == d && pyStartswith cs ds

/-- The Python substring test (needle in hay): some suffix of hay starts
with needle. -/
def listContains (hay needle : Str) : Bool :=
  match hay with
  | [] => needle.isEmpty
  | c :: t => pyStartswith needle (c :: t) || listContains t needle

/-- os.path.basename on a POSIX path: the part after the last slash. -/
def pyBasename (p : Str) : Str :=
  (p.reverse.takeWhile (fun c => c != '/')).reverse

/-- os.path.splitext: split at the last dot of the basename, provided that
dot is preceded, inside the basename, by at least one character that is not
a dot (so purely leading dots never start an extension). -/
def pySplitext (p : Str) : Str × Str :=
  match (pyBasename p).reverse.drop
      ((pyBasename p).reverse.takeWhile (fun c => c != '.')).length with
  | [] => (p, [])
  | _ :: nameRev =>
    if nameRev.reverse.any (fun c => c != '.') then
      (p.take (p.length - (pyBasename p).length) ++ nameRev.reverse,
       '.' :: ((pyBasename p).reverse.takeWhile (fun c => c != '.')).reverse)
    else (p, [])

/-- Scanner for Python str.replace with a nonempty pattern (the only use in
the source is the pattern "downloaded_"): left-to-right, non-overlapping
occurrences of pat are each replaced by repl.  The fuel argument only bounds
the recursion; any fuel at least the length of the string gives the real
semantics. -/
def pyReplaceGo (pat repl : Str) : Nat → Str → Str
  | 0, s => s
  | _ + 1, [] => []
  | fuel + 1, c :: cs =>
    if pyStartswith pat (c :: cs) then
      repl ++ pyReplaceGo pat repl fuel (cs.drop (pat.length - 1))
    else c :: pyReplaceGo pat repl fuel cs

/-- Python str.replace for a nonempty pattern. -/
def pyReplace (pat repl s : Str) : Str :=
  pyReplaceGo pat repl s.length s

/-- Scanner for re.sub with pattern backslash-s-plus and replacement "_":
the flag records whether the previous character belonged to a whitespace
run that has already emitted its underscore. -/
def reSubWsAux : Bool → Str → Str
  | _, [] => []
  | inRun, c :: cs =>
    if isPySpace c then
      if inRun then reSubWsAux true cs else '_' :: reSubWsAux true cs
    else c :: reSubWsAux false cs

/-- re.sub of every maximal whitespace run by a single underscore. -/
def reSubWs (s : Str) : Str := reSubWsAux false s

/-- The scanner state reached after processing a string: whether the last
processed character was whitespace (st if the string is empty). -/
def wsEnd (st : Bool) : Str → Bool
  | [] => st
  | c :: cs => wsEnd (isPySpace c) cs

/-- Python str.strip: remove whitespace from both ends. -/
def pyStrip (s : Str) : Str :=
  ((s.dropWhile isPySpace).reverse.dropWhile isPySpace).reverse

/-- os.path.exists restricted to the modelled working directory. -/
def fsExists (fs : FS) (name : Str) : Bool :=
  fs.any (fun p => p.1 == name)

/-- Opening a file for reading: the content, or a FileNotFoundError. -/
def fsRead (fs : FS) (name : Str) : Except Str Str :=
  match fs.find? (fun p => p.1 == name) with
  | some p => Except.ok p.2
  | none => Except.error ("No such file or directory".data)

/-- Opening a file for writing (creates or truncates). -/
def fsWrite (fs : FS) (name content : Str) : FS :=
  (name, content) :: fs.filter (fun p => p.1 != name)

/-- os.rename: move the content of src to dst; raises if src is missing
(the caller checks existence first). -/
def fsRename (fs : FS) (src dst : Str) : FS :=
  match fs.find? (fun p => p.1 == src) with
  | some p => fsWrite (fs.filter (fun q => q.1 != src)) dst p.2
  | none => fs

/-- Outcome of running a Python function: a normal return value, or an
uncaught exception carrying its message. -/
inductive POut (α : Type) : Type where
  | val (a : α)
  | exn (e : Str)
deriving DecidableEq

/-- One observable external call made by the pipeline. -/
inductive Ev : Type where
  | ytContact (link : Str)
  | ytDownload (link : Str)
  | whisper (audio : Str)
  | chatTranslate (text : Str)
  | chatSummary (text : Str) (len : Nat)
deriving DecidableEq

/-- Raw metadata the video platform returns for a link. -/
structure YtMeta : Type where
  title : Str
  author : Str
  views : Nat
  length : Nat
  publish_date : Str
  thumbnail_url : Str
deriving DecidableEq

/-- The details dictionary built by get_youtube_video_details. -/
structure VideoDetails : Type where
  title : Str
  author : Str
  views : Nat
  length : Str
  publish_date : Str
  thumbnail_url : Str
deriving DecidableEq

/-- The external world: each field models one remote service call and may
either return a value or raise an exception (modelled as Except.error). -/
structure Env : Type where
  ytMeta : Str → Except Str YtMeta
  ytDownload : Str → Except Str Str
  ytAudio : Str → Str
  ytCreates : Str → Bool
  whisper : Str → Except Str Str
  chatTranslate : Str → Except Str Str
  chatSummary : Str → Nat → Except Str Str

/-- One decimal digit as a character. -/
def digitChar (n : Nat) : Char := Char.ofNat (48 + n)

/-- Two zero-padded decimal digits. -/
def twoDigits (n : Nat) : Str := [digitChar (n / 10 % 10), digitChar (n % 10)]

/-- convert_seconds_to_time: time.strftime of gmtime(seconds) with format
HH:MM:SS (hours wrap at one day, as gmtime does). -/
def convert_seconds_to_time (seconds : Nat) : Str :=
  let s := seconds % 86400
  twoDigits (s / 3600) ++ (':' :: (twoDigits (s % 3600 / 60) ++ (':' :: twoDigits (s % 60))))

/-- get_youtube_video_details: reject links without the substring
"youtube.com" before contacting the platform; otherwise fetch the metadata
and build the details record, converting any exception into a message. -/
def get_youtube_video_details (env : Env) (link : Str) :
    List Ev × POut (Bool × (VideoDetails ⊕ Str)) :=
  if listContains link "youtube.com".data = false then
    ([], POut.val (false, Sum.inr "Please provide a valid YouTube URL".data))
  else
    match env.ytMeta link with
    | Except.ok m =>
      ([Ev.ytContact link],
       POut.val (true, Sum.inl {
         title := m.title
         author := m.author
         views := m.views
         length := convert_seconds_to_time m.length
         publish_date := m.publish_date
         thumbnail_url := m.thumbnail_url }))
    | Except.error e =>
      ([Ev.ytContact link],
       POut.val (false, Sum.inr ("An error occurred while fetching video details: ".data ++ e)))

/-- The file name computed by rename_audio_file: "downloaded_" plus the
basename without extension plus ".mp3", with every maximal whitespace run
replaced by a single underscore by re.sub. -/
def rename_target (output_file : Str) : Str :=
  reSubWs ("downloaded_".data ++ (pySplitext (pyBasename output_file)).1 ++ ".mp3".data)

/-- rename_audio_file: compute the normalized name and os.rename the file
onto it; os.rename raises if the source file is missing. -/
def rename_audio_file (fs : FS) (output_file : Str) : FS × POut Str :=
  if fsExists fs output_file then
    (fsRename fs output_file (rename_target output_file), POut.val (rename_target output_file))
  else
    (fs, POut.exn "No such file or directory".data)

/-- youtube_audio_downloader: contact the platform and download the audio
stream (the file appears on disk when the environment says the download
created it), fail with a message if the file is absent afterwards, rename
it; any exception becomes a (false, message) result. -/
def youtube_audio_downloader (env : Env) (fs : FS) (link : Str) :
    FS × List Ev × POut (Bool × Str) :=
  match env.ytDownload link with
  | Except.error e =>
    (fs, [Ev.ytContact link, Ev.ytDownload link],
     POut.val (false, "An error occurred while downloading the audio: ".data ++ e))
  | Except.ok output_file =>
    let fs1 := if env.ytCreates link then fsWrite fs output_file (env.ytAudio link) else fs
    if fsExists fs1 output_file = false then
      (fs1, [Ev.ytContact link, Ev.ytDownload link], POut.val (false, "Download failed!".data))
    else
      match rename_audio_file fs1 output_file with
      | (fs2, POut.val audio_file) =>
        (fs2, [Ev.ytContact link, Ev.ytDownload link], POut.val (true, audio_file))
      | (fs2, POut.exn e) =>
        (fs2, [Ev.ytContact link, Ev.ytDownload link],
         POut.val (false, "An error occurred while downloading the audio: ".data ++ e))

/-- The transcript file name written by save_transcript: "transcript_" plus
the audio path without its extension with every occurrence of the substring
"downloaded_" removed by str.replace, plus ".txt". -/
def transcript_filename (audio_file : Str) : Str :=
  "transcript_".data ++ pyReplace "downloaded_".data [] (pySplitext audio_file).1 ++ ".txt".data

/-- save_transcript: write the text to the derived transcript file name and
return that name. -/
def save_transcript (fs : FS) (audio_file transcript_text : Str) : FS × Str :=
  (fsWrite fs (transcript_filename audio_file) transcript_text, transcript_filename audio_file)

/-- transcribe: fail without any remote call when the audio file does not
exist; otherwise send its content to the speech-to-text service once, save
the transcript, and convert any exception into a (false, message) result. -/
def transcribe (env : Env) (fs : FS) (audio_file : Str) :
    FS × List Ev × POut (Bool × Str) :=
  if fsExists fs audio_file = false then
    (fs, [], POut.val (false, "File does not exist!".data))
  else
    match fsRead fs audio_file with
    | Except.error e =>
      (fs, [], POut.val (false, "An error occurred while transcribing the audio: ".data ++ e))
    | Except.ok content =>
      match env.whisper content with
      | Except.error e =>
        (fs, [Ev.whisper content],
         POut.val (false, "An error occurred while transcribing the audio: ".data ++ e))
      | Except.ok text =>
        let r := save_transcript fs audio_file text
        (r.1, [Ev.whisper content], POut.val (true, r.2))

/-- translate: fail when the transcript file does not exist; otherwise send
its text to the chat service once and save the translation; any exception
becomes a (false, message) result. -/
def translate (env : Env) (fs : FS) (transcript_file : Str) :
    FS × List Ev × POut (Bool × Str) :=
  if fsExists fs transcript_file = false then
    (fs, [], POut.val (false, "File does not exist!".data))
  else
    match fsRead fs transcript_file with
    | Except.error e =>
      (fs, [], POut.val (false, "An error occurred while translating the transcript: ".data ++ e))
    | Except.ok transcript_text =>
      match env.chatTranslate transcript_text with
      | Except.error e =>
        (fs, [Ev.chatTranslate transcript_text],
         POut.val (false, "An error occurred while translating the transcript: ".data ++ e))
      | Except.ok content =>
        let r := save_transcript fs transcript_file content
        (r.1, [Ev.chatTranslate transcript_text], POut.val (true, r.2))

/-- generate_summary: one chat-completion call on the transcript with the
requested length; an exception propagates to the caller. -/
def generate_summary (env : Env) (transcript : Str) (summary_length : Nat) :
    List Ev × Except Str Str :=
  ([Ev.chatSummary transcript summary_length], env.chatSummary transcript summary_length)

/-- summarize: fail when the transcript file does not exist; otherwise read
it and call generate_summary, converting any exception into a
(false, message) result. -/
def summarize (env : Env) (fs : FS) (transcript_filename_arg : Str) (summary_length : Nat) :
    FS × List Ev × POut (Bool × Str) :=
  if fsExists fs transcript_filename_arg = false then
    (fs, [], POut.val (false, "File does not exist!".data))
  else
    match fsRead fs transcript_filename_arg with
    | Except.error e =>
      (fs, [], POut.val (false, "An error occurred while summarizing the transcript: ".data ++ e))
    | Except.ok transcript =>
      match generate_summary env transcript summary_length with
      | (tr, Except.ok response) => (fs, tr, POut.val (true, response))
      | (tr, Except.error e) =>
        (fs, tr, POut.val (false, "An error occurred while summarizing the transcript: ".data ++ e))

/-- Whether cleanup_files deletes a file of this name: one of the four
fixed name beginnings. -/
def cleanupMatch (name : Str) : Bool :=
  pyStartswith "downloaded_".data name || pyStartswith "transcript_".data name
  || pyStartswith "uploaded_".data name || pyStartswith "temp_".data name

/-- cleanup_files: delete every file in the working directory whose name
starts with one of the four fixed beginnings. -/
def cleanup_files (fs : FS) : FS :=
  fs.filter (fun p => !cleanupMatch p.1)

/-- The two session-state strings the app maintains. -/
structure Session : Type where
  summary : Str
  transcript : Str
deriving DecidableEq

/-- The four pipeline stages of process_file. -/
inductive Stage : Type where
  | download
  | transcription
  | translation
  | summarization
deriving DecidableEq

/-- Position of a stage in the pipeline order. -/
def stageIdx : Stage → Nat
  | Stage.download => 0
  | Stage.transcription => 1
  | Stage.translation => 2
  | Stage.summarization => 3

/-- The stage an external call belongs to. -/
def evStage : Ev → Nat
  | Ev.ytContact _ => 0
  | Ev.ytDownload _ => 0
  | Ev.whisper _ => 1
  | Ev.chatTranslate _ => 2
  | Ev.chatSummary _ _ => 3

/-- Whether an external call is a translation call. -/
def evIsTranslate : Ev → Bool
  | Ev.chatTranslate _ => true
  | _ => false

/-- How one run of process_file ended: the whole pipeline completed, or some
stage returned a failure and its message was displayed. -/
inductive PFExit : Type where
  | completed
  | stopped (s : Stage) (msg : Str)
deriving DecidableEq

/-- Everything one run of process_file produces: the final working
directory, the final session state, the external calls made, and how the
run ended (POut.exn for an exception escaping process_file). -/
structure PFResult : Type where
  fs : FS
  session : Session
  trace : List Ev
  exit : POut PFExit
deriving DecidableEq

/-- The tail of process_file from the point where transcript_file is known:
summarize, then (on success) store transcript and summary in the session. -/
def pf_after_transcript (env : Env) (fs : FS) (ss : Session) (transcript_file : Str)
    (summary_length : Nat) : PFResult :=
  match (summarize env fs transcript_file summary_length).2.2 with
  | POut.exn e =>
    ⟨(summarize env fs transcript_file summary_length).1, ss,
     (summarize env fs transcript_file summary_length).2.1, POut.exn e⟩
  | POut.val (false, msg) =>
    ⟨(summarize env fs transcript_file summary_length).1, ss,
     (summarize env fs transcript_file summary_length).2.1,
     POut.val (PFExit.stopped Stage.summarization msg)⟩
  | POut.val (true, result) =>
    match fsRead (summarize env fs transcript_file summary_length).1 transcript_file with
    | Except.error e =>
      ⟨(summarize env fs transcript_file summary_length).1, ss,
       (summarize env fs transcript_file summary_length).2.1, POut.exn e⟩
    | Except.ok text =>
      ⟨(summarize env fs transcript_file summary_length).1, ⟨result, text⟩,
       (summarize env fs transcript_file summary_length).2.1, POut.val PFExit.completed⟩

/-- The branch of process_file for non-text input: transcribe, optionally
translate, then continue with the transcript file. -/
def pf_not_text (env : Env) (fs : FS) (ss : Session) (file : Str)
    (summary_length : Nat) (translate_text : Bool) : PFResult :=
  match (transcribe env fs file).2.2 with
  | POut.exn e => ⟨(transcribe env fs file).1, ss, (transcribe env fs file).2.1, POut.exn e⟩
  | POut.val (false, msg) =>
    ⟨(transcribe env fs file).1, ss, (transcribe env fs file).2.1,
     POut.val (PFExit.stopped Stage.transcription msg)⟩
  | POut.val (true, tfile) =>
    if translate_text then
      match (translate env (transcribe env fs file).1 tfile).2.2 with
      | POut.exn e =>
        ⟨(translate env (transcribe env fs file).1 tfile).1, ss,
         (transcribe env fs file).2.1 ++ (translate env (transcribe env fs file).1 tfile).2.1,
         POut.exn e⟩
      | POut.val (false, msg) =>
        ⟨(translate env (transcribe env fs file).1 tfile).1, ss,
         (transcribe env fs file).2.1 ++ (translate env (transcribe env fs file).1 tfile).2.1,
         POut.val (PFExit.stopped Stage.translation msg)⟩
      | POut.val (true, tfile2) =>
        let r := pf_after_transcript env (translate env (transcribe env fs file).1 tfile).1 ss
          tfile2 summary_length
        ⟨r.fs, r.session,
         (transcribe env fs file).2.1
           ++ (translate env (transcribe env fs file).1 tfile).2.1 ++ r.trace, r.exit⟩
    else
      let r := pf_after_transcript env (transcribe env fs file).1 ss tfile summary_length
      ⟨r.fs, r.session, (transcribe env fs file).2.1 ++ r.trace, r.exit⟩

/-- The part of process_file after the download step: text input goes
straight to summarization, anything else through transcription. -/
def pf_rest (env : Env) (fs : FS) (ss : Session) (file : Str) (is_text : Bool)
    (summary_length : Nat) (translate_text : Bool) : PFResult :=
  if is_text then pf_after_transcript env fs ss file summary_length
  else pf_not_text env fs ss file summary_length translate_text

/-- The try-block of process_file: download first for YouTube input, then
the rest of the pipeline. -/
def process_file_body (env : Env) (fs : FS) (ss : Session) (file : Str)
    (is_youtube is_text : Bool) (summary_length : Nat) (translate_text : Bool) : PFResult :=
  if is_youtube then
    match (youtube_audio_downloader env fs file).2.2 with
    | POut.exn e =>
      ⟨(youtube_audio_downloader env fs file).1, ss,
       (youtube_audio_downloader env fs file).2.1, POut.exn e⟩
    | POut.val (false, msg) =>
      ⟨(youtube_audio_downloader env fs file).1, ss,
       (youtube_audio_downloader env fs file).2.1, POut.val (PFExit.stopped Stage.download msg)⟩
    | POut.val (true, audio_file) =>
      let r := pf_rest env (youtube_audio_downloader env fs file).1 ss audio_file is_text
        summary_length translate_text
      ⟨r.fs, r.session, (youtube_audio_downloader env fs file).2.1 ++ r.trace, r.exit⟩
  else pf_rest env fs ss file is_text summary_length translate_text

/-- process_file: run the pipeline and, on every exit path (the finally
block), run cleanup_files over the working directory. -/
def process_file (env : Env) (fs : FS) (ss : Session) (file : Str)
    (is_youtube is_text : Bool) (summary_length : Nat) (translate_text : Bool) : PFResult :=
  let r := process_file_body env fs ss file is_youtube is_text summary_length translate_text
  ⟨cleanup_files r.fs, r.session, r.trace, r.exit⟩

/-- handle_direct_text_input: if the entered text is nonempty after
stripping, persist it to temp_user_input.txt and return the triple
(file, is_text, is_youtube) = (that file, true, false). -/
def handle_direct_text_input (fs : FS) (user_input_text : Str) :
    FS × Option (Str × Bool × Bool) :=
  if (pyStrip user_input_text).isEmpty then (fs, none)
  else
    (fsWrite fs "temp_user_input.txt".data user_input_text,
     some ("temp_user_input.txt".data, true, false))

/-- The session-state slots of the app: the two result strings plus the
last recorded input mode (none when last_input_type was never set). -/
structure AppState : Type where
  session : Session
  last_input_type : Option Str
deriving DecidableEq

/-- The mode-change guard at the top of main: when last_input_type is absent
or differs from the selected mode, clear summary and transcript and record
the mode. -/
def mode_reset (st : AppState) (input_type : Str) : AppState :=
  match st.last_input_type with
  | none => ⟨⟨[], []⟩, some input_type⟩
  | some t => if t ≠ input_type then ⟨⟨[], []⟩, some input_type⟩ else st

/-- One rerun of main: apply the mode-change guard, then, when an input is
present and the button was pressed, run process_file on the reset state. -/
def main_step (env : Env) (fs : FS) (st : AppState) (input_type : Str)
    (file_info : Option (Str × Bool × Bool)) (summary_length : Nat)
    (translate_text : Bool) (button : Bool) : FS × AppState :=
  let st1 := mode_reset st input_type
  match file_info, button with
  | some (file, is_text, is_youtube), true =>
    let r := process_file env fs st1.session file is_youtube is_text summary_length translate_text
    (r.fs, ⟨r.session, st1.last_input_type⟩)
  | _, _ => (fs, st1)

/-- The transcript file name exactly as claim C5 states it: the basename of
the audio path, extension removed, a leading "downloaded_" stripped and
nothing else altered, wrapped in "transcript_" and ".txt".  Written from the
claim wording, to be compared with transcript_filename. -/
def c5_claimed_name (audio_file : Str) : Str :=
  let base := pyBasename audio_file
  let name := (pySplitext base).1
  let stripped :=
    if pyStartswith "downloaded_".data name then name.drop "downloaded_".data.length else name
  "transcript_".data ++ stripped ++ ".txt".data

/-- Whether the last character of a string is absent or not whitespace
(used to state that a whitespace run is maximal on the left). -/
def lastNotWs (l : Str) : Bool :=
  match l.getLast? with
  | none => true
  | some c => !isPySpace c

/-- Whether the first character of a string is absent or not whitespace
(used to state that a whitespace run is maximal on the right). -/
def headNotWs (l : Str) : Bool :=
  match l.head? with
  | none => true
  | some c => !isPySpace c

/-- A concrete environment in which every remote call fails with message E;
used to exhibit concrete runs. -/
def envC : Env where
  ytMeta := fun _ => Except.error "E".data
  ytDownload := fun _ => Except.error "E".data
  ytAudio := fun _ => []
  ytCreates := fun _ => false
  whisper := fun _ => Except.error "E".data
  chatTranslate := fun _ => Except.error "E".data
  chatSummary := fun _ _ => Except.error "E".data

/-- A concrete working directory holding one file "a" with content "x". -/
def fsA : FS := [("a".data, "x".data)]

/-- A concrete session state with nonempty fields. -/
def ssA : Session := ⟨"s".data, "t".data⟩

/-! ### Helper lemmas: strings and the file system -/

theorem pyStartswith_append (l t : Str) : pyStartswith l (l ++ t) = true := by
  induction l with
  | nil => rfl
  | cons c cs ih => simp [pyStartswith, ih]

theorem fsExists_write (fs : FS) (n c : Str) : fsExists (fsWrite fs n c) n = true := by
  simp [fsExists, fsWrite]

theorem fsRead_write (fs : FS) (n c : Str) : fsRead (fsWrite fs n c) n = Except.ok c := by
  simp [fsRead, fsWrite, List.find?_cons_of_pos]

theorem fsRead_ok_exists {fs : FS} {n c : Str} (h : fsRead fs n = Except.ok c) :
    fsExists fs n = true := by
  unfold fsRead at h
  cases hf : List.find? (fun p => p.1 == n) fs with
  | none => rw [hf] at h; exact absurd h (by simp)
  | some q =>
    have hq : q ∈ fs := List.mem_of_find?_eq_some hf
    have hpq : (q.1 == n) = true := (List.find?_eq_some.mp hf).1
    exact List.any_eq_true.mpr ⟨q, hq, hpq⟩

/-! ### Helper lemmas: traces of the stage wrappers -/

theorem yad_trace_eq (env : Env) (fs : FS) (link : Str) :
    (youtube_audio_downloader env fs link).2.1 = [Ev.ytContact link, Ev.ytDownload link] := by
  unfold youtube_audio_downloader
  cases env.ytDownload link with
  | error e => rfl
  | ok output_file =>
    dsimp only
    split
    all_goals split
    all_goals try rfl
    all_goals split <;> rfl

theorem transcribe_trace_all (env : Env) (fs : FS) (f : Str) (p : Ev → Bool)
    (h : ∀ a, p (Ev.whisper a) = true) :
    (transcribe env fs f).2.1.all p = true := by
  unfold transcribe
  split
  · rfl
  · cases fsRead fs f with
    | error e => rfl
    | ok content =>
      dsimp only
      cases env.whisper content with
      | error e => simp [h]
      | ok text => simp [h]

theorem translate_trace_all (env : Env) (fs : FS) (f : Str) (p : Ev → Bool)
    (h : ∀ a, p (Ev.chatTranslate a) = true) :
    (translate env fs f).2.1.all p = true := by
  unfold translate
  split
  · rfl
  · cases fsRead fs f with
    | error e => rfl
    | ok text =>
      dsimp only
      cases env.chatTranslate text with
      | error e => simp [h]
      | ok content => simp [h]

theorem summarize_trace_all (env : Env) (fs : FS) (f : Str) (n : Nat) (p : Ev → Bool)
    (h : ∀ a k, p (Ev.chatSummary a k) = true) :
    (summarize env fs f n).2.1.all p = true := by
  unfold summarize
  split
  · rfl
  · cases fsRead fs f with
    | error e => rfl
    | ok transcript =>
      dsimp only [generate_summary]
      cases env.chatSummary transcript n with
      | error e => simp [h]
      | ok response => simp [h]

theorem pat_trace_eq (env : Env) (fs : FS) (ss : Session) (tf : Str) (n : Nat) :
    (pf_after_transcript env fs ss tf n).trace = (summarize env fs tf n).2.1 := by
  unfold pf_after_transcript
  cases (summarize env fs tf n).2.2 with
  | exn e => rfl
  | val a =>
    rcases a with ⟨b, s⟩
    cases b
    · rfl
    · dsimp only
      cases fsRead (summarize env fs tf n).1 tf <;> rfl

theorem all_ble3 (tr : List Ev) : tr.all (fun ev => Nat.ble (evStage ev) 3) = true := by
  rw [List.all_eq_true]
  intro ev _
  cases ev <;> rfl

/-! ### Helper lemmas: the whitespace scanner of re.sub -/

theorem reSubWsAux_append (xs : Str) : ∀ (st : Bool) (ys : Str),
    reSubWsAux st (xs ++ ys) = reSubWsAux st xs ++ reSubWsAux (wsEnd st xs) ys := by
  induction xs with
  | nil => intro st ys; rfl
  | cons c cs ih =>
    intro st ys
    cases hc : isPySpace c with
    | true => cases st <;> simp [reSubWsAux, wsEnd, hc, ih]
    | false => simp [reSubWsAux, wsEnd, hc, ih]

theorem reSubWsAux_nows {l : Str} (h : ∀ c ∈ l, isPySpace c = false) :
    ∀ st, reSubWsAux st l = l := by
  induction l with
  | nil => intro st; rfl
  | cons c cs ih =>
    intro st
    have hc : isPySpace c = false := h c (by simp)
    have ihh := ih (fun d hd => h d (by simp [hd])) false
    simp [reSubWsAux, hc, ihh]

theorem wsEnd_false_of_lastNotWs : ∀ {a : Str}, lastNotWs a = true → wsEnd false a = false := by
  intro a
  induction a with
  | nil => intro _; rfl
  | cons c cs ih =>
    intro h
    cases cs with
    | nil =>
      have hc : (!isPySpace c) = true := by simpa [lastNotWs] using h
      show isPySpace c = false
      simpa using hc
    | cons d ds =>
      have h2 : lastNotWs (d :: ds) = true := by
        simpa [lastNotWs, List.getLast?_cons_cons] using h
      exact ih h2

theorem reSubWsAux_true_allws {l : Str} (h : ∀ c ∈ l, isPySpace c = true) :
    reSubWsAux true l = [] := by
  induction l with
  | nil => rfl
  | cons c cs ih =>
    have hc := h c (by simp)
    simp [reSubWsAux, hc, ih (fun d hd => h d (by simp [hd]))]

theorem reSubWsAux_false_allws {l : Str} (h : ∀ c ∈ l, isPySpace c = true) (hne : l ≠ []) :
    reSubWsAux false l = ['_'] := by
  cases l with
  | nil => exact absurd rfl hne
  | cons c cs =>
    have hc := h c (by simp)
    have h2 : reSubWsAux true cs = [] :=
      reSubWsAux_true_allws (fun d hd => h d (List.mem_cons_of_mem _ hd))
    simp [reSubWsAux, hc, h2]

theorem wsEnd_allws : ∀ {l : Str}, (∀ c ∈ l, isPySpace c = true) → l ≠ [] →
    ∀ st, wsEnd st l = true := by
  intro l
  induction l with
  | nil => intro _ hne; exact absurd rfl hne
  | cons c cs ih =>
    intro h _ st
    cases cs with
    | nil =>
      show isPySpace c = true
      exact h c (by simp)
    | cons d ds =>
      exact ih (fun x hx => h x (by simp [hx])) (by simp) (isPySpace c)

theorem reSubWsAux_true_headNotWs {l : Str} (h : headNotWs l = true) :
    reSubWsAux true l = reSubWsAux false l := by
  cases l with
  | nil => rfl
  | cons c cs =>
    have hc : isPySpace c = false := by simpa [headNotWs] using h
    simp [reSubWsAux, hc]

theorem reSubWs_run (a run b : Str) (ha : lastNotWs a = true) (hrun : run ≠ [])
    (hws : ∀ c ∈ run, isPySpace c = true) (hb : headNotWs b = true) :
    reSubWs (a ++ (run ++ b)) = reSubWs a ++ ('_' :: reSubWs b) := by
  unfold reSubWs
  rw [reSubWsAux_append a, wsEnd_false_of_lastNotWs ha, reSubWsAux_append run,
    wsEnd_allws hws hrun false, reSubWsAux_false_allws hws hrun,
    reSubWsAux_true_headNotWs hb]
  rfl

/-! ### Helper lemmas: str.replace removal of a leading pattern -/

theorem replaceGo_no_match (pat repl : Str) : ∀ (fuel : Nat) (s : Str), s.length ≤ fuel →
    listContains s pat = false → pyReplaceGo pat repl fuel s = s := by
  intro fuel
  induction fuel with
  | zero => intro s _ _; rfl
  | succ f ih =>
    intro s hle hnc
    cases s with
    | nil => rfl
    | cons c cs =>
      simp only [listContains, Bool.or_eq_false_iff] at hnc
      show (if pyStartswith pat (c :: cs) then _ else c :: pyReplaceGo pat repl f cs) = c :: cs
      rw [hnc.1]
      simp only [Bool.false_eq_true, if_false]
      congr 1
      exact ih cs (Nat.le_of_succ_le_succ hle) hnc.2

theorem pyReplace_strip (n : Str) (h : listContains n "downloaded_".data = false) :
    pyReplace "downloaded_".data [] ("downloaded_".data ++ n) = n := by
  have step : pyReplace "downloaded_".data [] ("downloaded_".data ++ n)
      = pyReplaceGo "downloaded_".data [] (n.length + 10) n := rfl
  rw [step]
  exact replaceGo_no_match _ _ _ _ (Nat.le_add_right _ _) h

/-! ### Helper lemmas: splitext on the standard downloaded audio names -/

theorem takeWhile_all {p : Char → Bool} : ∀ {l : Str}, (∀ c ∈ l, p c = true) →
    l.takeWhile p = l := by
  intro l
  induction l with
  | nil => intro _; rfl
  | cons c cs ih =>
    intro h
    simp only [List.takeWhile_cons, h c (by simp), if_true]
    rw [ih (fun d hd => h d (by simp [hd]))]

theorem pyBasename_eq_self {p : Str} (h : ∀ c ∈ p, (c != '/') = true) : pyBasename p = p := by
  unfold pyBasename
  rw [takeWhile_all (fun c hc => h c (List.mem_reverse.mp hc)), List.reverse_reverse]

theorem pySplitext_dl (n : Str) (hslash : ∀ c ∈ n, (c != '/') = true) :
    pySplitext ("downloaded_".data ++ (n ++ ".mp3".data))
      = ("downloaded_".data ++ n, ".mp3".data) := by
  have hdl2 : ∀ c ∈ "downloaded_".data, (c != '/') = true := by decide
  have hmp3 : ∀ c ∈ ".mp3".data, (c != '/') = true := by decide
  have hall : ∀ c ∈ "downloaded_".data ++ (n ++ ".mp3".data), (c != '/') = true := by
    intro c hc
    rcases List.mem_append.mp hc with h1 | h2
    · exact hdl2 c h1
    · rcases List.mem_append.mp h2 with h3 | h4
      · exact hslash c h3
      · exact hmp3 c h4
  have hb := pyBasename_eq_self hall
  have hrev : ("downloaded_".data ++ (n ++ ".mp3".data)).reverse
      = '3' :: 'p' :: 'm' :: '.' :: (n.reverse ++ "downloaded_".data.reverse) := by
    rw [List.reverse_append, List.reverse_append]
    rfl
  have htw : (('3' :: 'p' :: 'm' :: '.' :: (n.reverse ++ "downloaded_".data.reverse)).takeWhile
      (fun c => c != '.')) = ['3', 'p', 'm'] := rfl
  have hdrop : ('3' :: 'p' :: 'm' :: '.' :: (n.reverse ++ "downloaded_".data.reverse)).drop
      (['3', 'p', 'm'] : Str).length = '.' :: (n.reverse ++ "downloaded_".data.reverse) := rfl
  have hany : ((n.reverse ++ "downloaded_".data.reverse).reverse.any (fun c => c != '.')) = true := by
    rw [List.reverse_append, List.reverse_reverse, List.reverse_reverse, List.any_append]
    have hdl : ("downloaded_".data.any (fun c => c != '.')) = true := rfl
    rw [hdl, Bool.true_or]
  unfold pySplitext
  rw [hb, hrev, htw, hdrop]
  dsimp only
  rw [if_pos hany]
  rw [List.reverse_append, List.reverse_reverse, List.reverse_reverse,
    Nat.sub_self, List.take_zero, List.nil_append]
  rfl

/-! ### Helper lemmas: inverting a stopped pipeline run -/

theorem ev_ble {k : Nat} (ev : Ev) (h : evStage ev ≤ k) : Nat.ble (evStage ev) k = true := by
  rw [Nat.ble_eq]; exact h

theorem pat_stopped {env : Env} {fs : FS} {ss : Session} {tf : Str} {n : Nat}
    {st : Stage} {m : Str}
    (h : (pf_after_transcript env fs ss tf n).exit = POut.val (PFExit.stopped st m)) :
    (pf_after_transcript env fs ss tf n).session = ss ∧ st = Stage.summarization := by
  unfold pf_after_transcript at h ⊢
  cases hs : (summarize env fs tf n).2.2 with
  | exn e => rw [hs] at h; simp at h
  | val a =>
    rw [hs] at h
    rcases a with ⟨b, s⟩
    cases b with
    | false =>
      dsimp only at h
      simp only [POut.val.injEq, PFExit.stopped.injEq] at h
      exact ⟨rfl, h.1.symm⟩
    | true =>
      dsimp only at h
      cases hr : fsRead (summarize env fs tf n).1 tf with
      | error e => rw [hr] at h; simp at h
      | ok text => rw [hr] at h; simp at h

theorem pnt_stopped {env : Env} {fs : FS} {ss : Session} {f : Str} {n : Nat} {tt : Bool}
    {st : Stage} {m : Str}
    (h : (pf_not_text env fs ss f n tt).exit = POut.val (PFExit.stopped st m)) :
    (pf_not_text env fs ss f n tt).session = ss
    ∧ (pf_not_text env fs ss f n tt).trace.all
        (fun ev => Nat.ble (evStage ev) (stageIdx st)) = true := by
  unfold pf_not_text at h ⊢
  cases ht : (transcribe env fs f).2.2 with
  | exn e => rw [ht] at h; simp at h
  | val a =>
    rw [ht] at h
    rcases a with ⟨b, s⟩
    cases b with
    | false =>
      dsimp only at h
      simp only [POut.val.injEq, PFExit.stopped.injEq] at h
      obtain ⟨hst, _⟩ := h
      subst hst
      exact ⟨rfl, transcribe_trace_all env fs f
        (fun ev => Nat.ble (evStage ev) (stageIdx Stage.transcription))
        (fun a => ev_ble _ (by norm_num [evStage, stageIdx]))⟩
    | true =>
      dsimp only at h ⊢
      cases tt with
      | false =>
        rw [if_neg (by simp)] at h ⊢
        dsimp only at h ⊢
        obtain ⟨h1, h2⟩ := pat_stopped h
        subst h2
        refine ⟨h1, ?_⟩
        simp only [stageIdx]
        rw [List.all_append, all_ble3, all_ble3]
        rfl
      | true =>
        rw [if_pos rfl] at h ⊢
        cases hl : (translate env (transcribe env fs f).1 s).2.2 with
        | exn e => rw [hl] at h; simp at h
        | val a2 =>
          rw [hl] at h
          rcases a2 with ⟨b2, s2⟩
          cases b2 with
          | false =>
            dsimp only at h
            simp only [POut.val.injEq, PFExit.stopped.injEq] at h
            obtain ⟨hst, _⟩ := h
            subst hst
            refine ⟨rfl, ?_⟩
            rw [List.all_append]
            rw [transcribe_trace_all env fs f _ (fun a => ev_ble _ (by norm_num [evStage, stageIdx]))]
            rw [translate_trace_all env (transcribe env fs f).1 s _
              (fun a => ev_ble _ (by norm_num [evStage, stageIdx]))]
            rfl
          | true =>
            dsimp only at h ⊢
            obtain ⟨h1, h2⟩ := pat_stopped h
            subst h2
            refine ⟨h1, ?_⟩
            simp only [stageIdx]
            rw [List.all_append, List.all_append]
            rw [all_ble3, all_ble3, all_ble3]
            rfl

theorem prest_stopped {env : Env} {fs : FS} {ss : Session} {f : Str} {it : Bool} {n : Nat}
    {tt : Bool} {st : Stage} {m : Str}
    (h : (pf_rest env fs ss f it n tt).exit = POut.val (PFExit.stopped st m)) :
    (pf_rest env fs ss f it n tt).session = ss
    ∧ (pf_rest env fs ss f it n tt).trace.all
        (fun ev => Nat.ble (evStage ev) (stageIdx st)) = true := by
  unfold pf_rest at h ⊢
  cases it with
  | true =>
    rw [if_pos rfl] at h ⊢
    obtain ⟨h1, h2⟩ := pat_stopped h
    subst h2
    refine ⟨h1, ?_⟩
    simp only [stageIdx]
    rw [pat_trace_eq]
    have := summarize_trace_all env fs f n
      (fun ev => Nat.ble (evStage ev) (stageIdx Stage.summarization))
      (fun a k => ev_ble _ (by norm_num [evStage, stageIdx]))
    exact this
  | false =>
    rw [if_neg (by simp)] at h ⊢
    exact pnt_stopped h

/-! ### Helper lemmas: the wrappers always return a (flag, payload) value -/

theorem gyvd_val (env : Env) (link : Str) :
    ∃ b r, (get_youtube_video_details env link).2 = POut.val (b, r)
      ∧ (b = true → ∃ d, r = Sum.inl d) ∧ (b = false → ∃ m, r = Sum.inr m) := by
  unfold get_youtube_video_details
  split
  · refine ⟨false, _, rfl, ?_, ?_⟩
    · intro hbt; simp at hbt
    · intro _; exact ⟨_, rfl⟩
  · cases env.ytMeta link with
    | ok mdata =>
      refine ⟨true, _, rfl, ?_, ?_⟩
      · intro _; exact ⟨_, rfl⟩
      · intro hbf; simp at hbf
    | error e =>
      refine ⟨false, _, rfl, ?_, ?_⟩
      · intro hbt; simp at hbt
      · intro _; exact ⟨_, rfl⟩

theorem yad_val (env : Env) (fs : FS) (link : Str) :
    ∃ b s, (youtube_audio_downloader env fs link).2.2 = POut.val (b, s) := by
  unfold youtube_audio_downloader
  cases env.ytDownload link with
  | error e => exact ⟨false, _, rfl⟩
  | ok output_file =>
    dsimp only
    split
    all_goals split
    all_goals try exact ⟨false, _, rfl⟩
    all_goals split
    all_goals try exact ⟨true, _, rfl⟩
    all_goals exact ⟨false, _, rfl⟩

theorem transcribe_val (env : Env) (fs : FS) (af : Str) :
    ∃ b s, (transcribe env fs af).2.2 = POut.val (b, s) := by
  unfold transcribe
  split
  · exact ⟨false, _, rfl⟩
  · cases fsRead fs af with
    | error e => exact ⟨false, _, rfl⟩
    | ok content =>
      dsimp only
      cases env.whisper content with
      | error e => exact ⟨false, _, rfl⟩
      | ok text => exact ⟨true, _, rfl⟩

theorem translate_val (env : Env) (fs : FS) (tf : Str) :
    ∃ b s, (translate env fs tf).2.2 = POut.val (b, s) := by
  unfold translate
  split
  · exact ⟨false, _, rfl⟩
  · cases fsRead fs tf with
    | error e => exact ⟨false, _, rfl⟩
    | ok text =>
      dsimp only
      cases env.chatTranslate text with
      | error e => exact ⟨false, _, rfl⟩
      | ok content => exact ⟨true, _, rfl⟩

theorem summarize_val (env : Env) (fs : FS) (sf : Str) (len : Nat) :
    ∃ b s, (summarize env fs sf len).2.2 = POut.val (b, s) := by
  unfold summarize
  split
  · exact ⟨false, _, rfl⟩
  · cases fsRead fs sf with
    | error e => exact ⟨false, _, rfl⟩
    | ok transcript =>
      dsimp only [generate_summary]
      cases env.chatSummary transcript len with
      | error e => exact ⟨false, _, rfl⟩
      | ok response => exact ⟨true, _, rfl⟩

theorem cleanup_files_all (fs : FS) :
    (cleanup_files fs).all (fun q => !cleanupMatch q.1) = true := by
  unfold cleanup_files
  rw [List.all_eq_true]
  intro q hq
  exact (List.mem_filter.mp hq).2

/-! ### The claims -/

/-- C1, counterexample: the claim states that for a URL without the
substring "youtube.com" BOTH acquisition functions return (false, message)
before any network call.  On the concrete non-YouTube URL
"http://example.com/a", youtube_audio_downloader performs its platform
calls (nonempty trace): it has no URL check at all and only reports
(false, message) after the attempt fails. -/
theorem claim1_counterexample :
    listContains "http://example.com/a".data "youtube.com".data = false
    ∧ (youtube_audio_downloader envC [] "http://example.com/a".data).2.1 ≠ []
    ∧ (youtube_audio_downloader envC [] "http://example.com/a".data).2.2
        = POut.val (false, "An error occurred while downloading the audio: E".data) :=
  ⟨by decide, by decide, by decide⟩

/-- C1, amended: for every URL without the substring "youtube.com",
get_youtube_video_details returns (false, message) with no network call
(empty trace); youtube_audio_downloader, by contrast, always contacts the
remote video platform, for every URL and environment. -/
theorem claim1_theorem (env : Env) (link : Str)
    (h : listContains link "youtube.com".data = false) :
    get_youtube_video_details env link
      = ([], POut.val (false, Sum.inr "Please provide a valid YouTube URL".data))
    ∧ ∀ fs, Ev.ytContact link ∈ (youtube_audio_downloader env fs link).2.1 := by
  constructor
  · unfold get_youtube_video_details
    rw [if_pos h]
  · intro fs
    rw [yad_trace_eq]
    simp

/-- Witness for C1 at the concrete URL "http://example.org/v". -/
theorem claim1_witness :
    get_youtube_video_details envC "http://example.org/v".data
      = ([], POut.val (false, Sum.inr "Please provide a valid YouTube URL".data))
    ∧ Ev.ytContact "http://example.org/v".data
        ∈ (youtube_audio_downloader envC [] "http://example.org/v".data).2.1 :=
  ⟨(claim1_theorem envC "http://example.org/v".data (by decide)).1,
   (claim1_theorem envC "http://example.org/v".data (by decide)).2 []⟩

/-- C2: whenever a run of process_file stops because some stage returned a
failure, the session fields summary and transcript are unchanged from
before the run, and every external call in the trace belongs to the failing
stage or an earlier one (no later stage is invoked). -/
theorem claim2_theorem (env : Env) (fs : FS) (ss : Session) (file : Str)
    (iy it : Bool) (len : Nat) (tt : Bool) (st : Stage) (m : Str)
    (h : (process_file env fs ss file iy it len tt).exit
        = POut.val (PFExit.stopped st m)) :
    (process_file env fs ss file iy it len tt).session = ss
    ∧ (process_file env fs ss file iy it len tt).trace.all
        (fun ev => Nat.ble (evStage ev) (stageIdx st)) = true := by
  unfold process_file at h ⊢
  dsimp only at h ⊢
  unfold process_file_body at h ⊢
  cases iy with
  | false =>
    rw [if_neg (by simp)] at h ⊢
    exact prest_stopped h
  | true =>
    rw [if_pos rfl] at h ⊢
    cases hd : (youtube_audio_downloader env fs file).2.2 with
    | exn e => rw [hd] at h; simp at h
    | val a =>
      rw [hd] at h
      rcases a with ⟨b, s⟩
      cases b with
      | false =>
        dsimp only at h
        simp only [POut.val.injEq, PFExit.stopped.injEq] at h
        obtain ⟨hst, _⟩ := h
        subst hst
        refine ⟨rfl, ?_⟩
        rw [yad_trace_eq]
        rfl
      | true =>
        dsimp only at h ⊢
        obtain ⟨h1, h2⟩ := prest_stopped h
        refine ⟨h1, ?_⟩
        rw [List.all_append, h2, yad_trace_eq]
        have hble : ∀ k, Nat.ble 0 k = true := by
          intro k; rw [Nat.ble_eq]; exact Nat.zero_le k
        simp [evStage, hble]

/-- Witness for C2: a concrete run in which transcription fails. -/
theorem claim2_witness :
    (process_file envC fsA ssA "a".data false false 50 false).session = ssA
    ∧ (process_file envC fsA ssA "a".data false false 50 false).trace.all
        (fun ev => Nat.ble (evStage ev) (stageIdx Stage.transcription)) = true :=
  claim2_theorem envC fsA ssA "a".data false false 50 false Stage.transcription
    ("An error occurred while transcribing the audio: E".data) (by decide)

/-- C3: on every exit path, process_file ends by running cleanup_files on
the working directory (the finally block), and afterwards no file whose
name starts with "downloaded_", "transcript_", "uploaded_" or "temp_"
remains. -/
theorem claim3_theorem (env : Env) (fs : FS) (ss : Session) (file : Str)
    (iy it : Bool) (len : Nat) (tt : Bool) :
    (process_file env fs ss file iy it len tt).fs
      = cleanup_files (process_file_body env fs ss file iy it len tt).fs
    ∧ (process_file env fs ss file iy it len tt).fs.all
        (fun q => !cleanupMatch q.1) = true :=
  ⟨rfl, cleanup_files_all _⟩

/-- C4: every external-call wrapper returns a pair of a success flag and a
payload (the stage result on true, a message on false) and never lets an
exception escape: its outcome is always POut.val, for every environment
and input. -/
theorem claim4_theorem (env : Env) (fs : FS) (link af tf sf : Str) (len : Nat) :
    (∃ b r, (get_youtube_video_details env link).2 = POut.val (b, r)
      ∧ (b = true → ∃ d, r = Sum.inl d) ∧ (b = false → ∃ m, r = Sum.inr m))
    ∧ (∃ b s, (youtube_audio_downloader env fs link).2.2 = POut.val (b, s))
    ∧ (∃ b s, (transcribe env fs af).2.2 = POut.val (b, s))
    ∧ (∃ b s, (translate env fs tf).2.2 = POut.val (b, s))
    ∧ (∃ b s, (summarize env fs sf len).2.2 = POut.val (b, s)) :=
  ⟨gyvd_val env link, yad_val env fs link, transcribe_val env fs af,
   translate_val env fs tf, summarize_val env fs sf len⟩

/-- C5, counterexample: the claim derives the transcript name from the
BASENAME with only a LEADING "downloaded_" stripped.  The code instead
keeps the directory part and removes EVERY occurrence of "downloaded_":
on "downloaded_dir/downloaded_a_downloaded_b.mp3" the code writes
"transcript_dir/a_b.txt" while the claim predicts
"transcript_a_downloaded_b.txt". -/
theorem claim5_counterexample :
    (save_transcript [] "downloaded_dir/downloaded_a_downloaded_b.mp3".data "t".data).2
        = "transcript_dir/a_b.txt".data
    ∧ c5_claimed_name "downloaded_dir/downloaded_a_downloaded_b.mp3".data
        = "transcript_a_downloaded_b.txt".data
    ∧ (save_transcript [] "downloaded_dir/downloaded_a_downloaded_b.mp3".data "t".data).2
        ≠ c5_claimed_name "downloaded_dir/downloaded_a_downloaded_b.mp3".data :=
  ⟨by decide, by decide, by decide⟩

/-- C5, amended: the transcript name is "transcript_" + N + ".txt" where N
is the FULL audio path with its extension removed and every occurrence of
the substring "downloaded_" removed left to right (str.replace).  In the
intended case of a slash-free name "downloaded_" + n + ".mp3" where n
contains no further occurrence of "downloaded_", this gives
"transcript_" + n + ".txt", and the content written is the transcript
text. -/
theorem claim5_theorem (fs : FS) (t n : Str)
    (h1 : n.all (fun c => c != '/') = true)
    (h2 : listContains n "downloaded_".data = false) :
    (save_transcript fs ("downloaded_".data ++ (n ++ ".mp3".data)) t).2
        = "transcript_".data ++ (n ++ ".txt".data)
    ∧ (save_transcript fs ("downloaded_".data ++ (n ++ ".mp3".data)) t).1
        = fsWrite fs ("transcript_".data ++ (n ++ ".txt".data)) t
    ∧ ∀ fs2 af t2, (save_transcript fs2 af t2).2
        = "transcript_".data
            ++ pyReplace "downloaded_".data [] (pySplitext af).1 ++ ".txt".data := by
  have hn : ∀ c ∈ n, (c != '/') = true := List.all_eq_true.mp h1
  have hname : transcript_filename ("downloaded_".data ++ (n ++ ".mp3".data))
      = "transcript_".data ++ (n ++ ".txt".data) := by
    unfold transcript_filename
    rw [pySplitext_dl n hn]
    dsimp only
    rw [pyReplace_strip n h2, List.append_assoc]
  refine ⟨hname, ?_, fun fs2 af t2 => rfl⟩
  show fsWrite fs (transcript_filename _) t = _
  rw [hname]

/-- Witness for C5 at the concrete name "downloaded_My_Video.mp3". -/
theorem claim5_witness :
    (save_transcript [] ("downloaded_".data ++ ("My_Video".data ++ ".mp3".data)) "x".data).2
        = "transcript_".data ++ ("My_Video".data ++ ".txt".data)
    ∧ (save_transcript [] "a.mp3".data "y".data).2
        = "transcript_".data
            ++ pyReplace "downloaded_".data [] (pySplitext "a.mp3".data).1 ++ ".txt".data :=
  ⟨(claim5_theorem [] "x".data "My_Video".data (by decide) (by decide)).1,
   (claim5_theorem [] "x".data "My_Video".data (by decide) (by decide)).2.2 [] "a.mp3".data "y".data⟩

/-- C6: the name computed by rename_audio_file is "downloaded_" + name +
".mp3" where name is the basename of the downloaded file without its
extension and every maximal whitespace run has become exactly one
underscore: decomposing the name as a ++ run ++ b around any maximal
whitespace run, the run contributes a single underscore; in particular
"My Video.mp4" yields "downloaded_My_Video.mp3". -/
theorem claim6_theorem (p t a run b : Str)
    (hdec : (pySplitext (pyBasename p)).1 = a ++ (run ++ b))
    (hrun : run.isEmpty = false)
    (hws : run.all isPySpace = true)
    (ha : lastNotWs a = true)
    (hb : headNotWs b = true) :
    (rename_audio_file [(p, t)] p).2
        = POut.val ("downloaded_".data ++ (reSubWs a ++ ('_' :: (reSubWs b ++ ".mp3".data))))
    ∧ rename_target "My Video.mp4".data = "downloaded_My_Video.mp3".data := by
  have hrun2 : run ≠ [] := by cases run <;> simp_all
  have hws2 : ∀ c ∈ run, isPySpace c = true := List.all_eq_true.mp hws
  have hdlws : ∀ c ∈ "downloaded_".data, isPySpace c = false := by decide
  have hmp3ws : ∀ c ∈ ".mp3".data, isPySpace c = false := by decide
  have ha2 : lastNotWs ("downloaded_".data ++ a) = true := by
    cases a with
    | nil => rw [List.append_nil]; decide
    | cons c cs =>
      unfold lastNotWs at ha ⊢
      rw [List.getLast?_append_cons]
      exact ha
  have hb2 : headNotWs (b ++ ".mp3".data) = true := by
    cases b with
    | nil => decide
    | cons c cs =>
      unfold headNotWs at hb ⊢
      rw [List.cons_append]
      exact hb
  have htarget : rename_target p
      = "downloaded_".data ++ (reSubWs a ++ ('_' :: (reSubWs b ++ ".mp3".data))) := by
    unfold rename_target
    rw [hdec]
    have hshape : ("downloaded_".data ++ (a ++ (run ++ b))) ++ ".mp3".data
        = ("downloaded_".data ++ a) ++ (run ++ (b ++ ".mp3".data)) := by
      simp [List.append_assoc]
    rw [hshape, reSubWs_run _ _ _ ha2 hrun2 hws2 hb2]
    unfold reSubWs
    rw [reSubWsAux_append "downloaded_".data, reSubWsAux_append b,
      reSubWsAux_nows hmp3ws]
    rfl
  constructor
  · have hex : fsExists [(p, t)] p = true := by simp [fsExists]
    unfold rename_audio_file
    rw [if_pos hex]
    dsimp only
    rw [htarget]
  · decide

/-- Witness for C6 on "My Video.mp4" decomposed as "My" ++ " " ++ "Video". -/
theorem claim6_witness :
    (rename_audio_file [("My Video.mp4".data, "x".data)] "My Video.mp4".data).2
        = POut.val ("downloaded_".data
            ++ (reSubWs "My".data ++ ('_' :: (reSubWs "Video".data ++ ".mp3".data))))
    ∧ rename_target "My Video.mp4".data = "downloaded_My_Video.mp3".data :=
  claim6_theorem "My Video.mp4".data "x".data "My".data " ".data "Video".data
    (by decide) (by decide) (by decide) (by decide) (by decide)

/-- C7: transcription of a path that names no existing file returns
(false, message) with no remote call (empty trace); and when the remote
speech-to-text call raises, transcribe returns (false, message) after
exactly one call (no retry), never an exception. -/
theorem claim7_theorem (env : Env) (fs : FS) (f : Str) :
    (fsExists fs f = false →
      transcribe env fs f = (fs, [], POut.val (false, "File does not exist!".data)))
    ∧ (∀ content e, fsRead fs f = Except.ok content → env.whisper content = Except.error e →
      transcribe env fs f = (fs, [Ev.whisper content],
        POut.val (false, "An error occurred while transcribing the audio: ".data ++ e))) := by
  constructor
  · intro h
    unfold transcribe
    rw [if_pos h]
  · intro content e h1 h2
    have hex : fsExists fs f = true := fsRead_ok_exists h1
    unfold transcribe
    rw [if_neg (by simp [hex]), h1]
    dsimp only
    rw [h2]

/-- Witness for C7: a missing file, and a concrete failing remote call. -/
theorem claim7_witness :
    transcribe envC [] "a".data = ([], [], POut.val (false, "File does not exist!".data))
    ∧ transcribe envC fsA "a".data = (fsA, [Ev.whisper "x".data],
        POut.val (false, "An error occurred while transcribing the audio: ".data ++ "E".data)) :=
  ⟨(claim7_theorem envC [] "a".data).1 rfl,
   (claim7_theorem envC fsA "a".data).2 "x".data "E".data rfl rfl⟩

/-- C8: whenever the selected input mode differs from the recorded
last_input_type (or none was recorded), the guard at the top of main clears
summary and transcript and records the new mode before any processing, so
the whole rerun behaves exactly as if the session had started empty in the
selected mode. -/
theorem claim8_theorem (st : AppState) (mode : Str) (h : st.last_input_type ≠ some mode) :
    (mode_reset st mode).session.summary = []
    ∧ (mode_reset st mode).session.transcript = []
    ∧ (mode_reset st mode).last_input_type = some mode
    ∧ ∀ env fs fi len tt button,
        main_step env fs st mode fi len tt button
          = main_step env fs ⟨⟨[], []⟩, some mode⟩ mode fi len tt button := by
  have hreset : mode_reset st mode = ⟨⟨[], []⟩, some mode⟩ := by
    unfold mode_reset
    cases hl : st.last_input_type with
    | none => rfl
    | some u =>
      have hne : u ≠ mode := by
        intro he
        exact h (by rw [hl, he])
      dsimp only
      rw [if_pos hne]
  have h2 : mode_reset ⟨⟨[], []⟩, some mode⟩ mode = ⟨⟨[], []⟩, some mode⟩ := by
    unfold mode_reset
    dsimp only
    rw [if_neg (fun hh => hh rfl)]
  refine ⟨by rw [hreset], by rw [hreset], by rw [hreset], ?_⟩
  intro env fs fi len tt button
  unfold main_step
  rw [hreset, h2]

/-- Witness for C8: a concrete mode switch from "Text file" to
"YouTube link". -/
theorem claim8_witness :
    (mode_reset ⟨⟨"s".data, "t".data⟩, some "Text file".data⟩
        "YouTube link".data).session.summary = []
    ∧ (mode_reset ⟨⟨"s".data, "t".data⟩, some "Text file".data⟩
        "YouTube link".data).session.transcript = []
    ∧ (mode_reset ⟨⟨"s".data, "t".data⟩, some "Text file".data⟩
        "YouTube link".data).last_input_type = some "YouTube link".data
    ∧ main_step envC [] ⟨⟨"s".data, "t".data⟩, some "Text file".data⟩
        "YouTube link".data none 50 false false
      = main_step envC [] ⟨⟨[], []⟩, some "YouTube link".data⟩
        "YouTube link".data none 50 false false := by
  obtain ⟨h1, h2, h3, h4⟩ := claim8_theorem ⟨⟨"s".data, "t".data⟩, some "Text file".data⟩
    "YouTube link".data (by decide)
  exact ⟨h1, h2, h3, h4 envC [] none 50 false false⟩

/-- C9: on direct text input "Hello world." with summary length 50 and
translation off, the input handler stores the text and the pipeline makes
exactly one external call, the summarization call on exactly the entered
text: no download, transcription or translation happens. -/
theorem claim9_theorem (env : Env) (fs : FS) (ss : Session) :
    (handle_direct_text_input fs "Hello world.".data).2
        = some ("temp_user_input.txt".data, true, false)
    ∧ (process_file env (handle_direct_text_input fs "Hello world.".data).1 ss
        "temp_user_input.txt".data false true 50 false).trace
        = [Ev.chatSummary "Hello world.".data 50] := by
  have hne : (pyStrip "Hello world.".data).isEmpty = false := by decide
  constructor
  · unfold handle_direct_text_input
    rw [if_neg (by simp [hne])]
  · unfold handle_direct_text_input
    rw [if_neg (by simp [hne])]
    dsimp only
    unfold process_file
    dsimp only
    unfold process_file_body
    rw [if_neg (by simp)]
    unfold pf_rest
    rw [if_pos rfl, pat_trace_eq]
    unfold summarize
    rw [if_neg (by simp [fsExists_write]), fsRead_write]
    dsimp only [generate_summary]
    cases env.chatSummary "Hello world.".data 50 <;> rfl

/-- C10: for text input (is_text = true) the translate stage is never
invoked: the run is identical whether the translate flag is on or off, and
the trace contains no translation call. -/
theorem claim10_theorem (env : Env) (fs : FS) (ss : Session) (file : Str)
    (iy : Bool) (len : Nat) :
    process_file env fs ss file iy true len true
      = process_file env fs ss file iy true len false
    ∧ (process_file env fs ss file iy true len true).trace.all
        (fun ev => !evIsTranslate ev) = true := by
  have hrest : ∀ fs2 f2 tt2, pf_rest env fs2 ss f2 true len tt2
      = pf_after_transcript env fs2 ss f2 len := by
    intro fs2 f2 tt2
    unfold pf_rest
    rw [if_pos rfl]
  have hnottr : ∀ a k, (!evIsTranslate (Ev.chatSummary a k)) = true := fun a k => rfl
  have hf : ¬(false = true) := Bool.false_ne_true
  constructor
  · have hbody : process_file_body env fs ss file iy true len true
        = process_file_body env fs ss file iy true len false := by
      unfold process_file_body
      cases iy with
      | false =>
        rw [if_neg hf, if_neg hf, hrest, hrest]
      | true =>
        rw [if_pos rfl, if_pos rfl]
        cases hd : (youtube_audio_downloader env fs file).2.2 with
        | exn e => rfl
        | val a =>
          rcases a with ⟨b, s⟩
          cases b
          · rfl
          · dsimp only
            rw [hrest, hrest]
    unfold process_file
    rw [hbody]
  · show (process_file_body env fs ss file iy true len true).trace.all
        (fun ev => !evIsTranslate ev) = true
    unfold process_file_body
    cases iy with
    | false =>
      rw [if_neg hf, hrest, pat_trace_eq]
      exact summarize_trace_all env fs file len _ hnottr
    | true =>
      rw [if_pos rfl]
      cases hd : (youtube_audio_downloader env fs file).2.2 with
      | exn e =>
        dsimp only
        rw [yad_trace_eq]
        rfl
      | val a =>
        rcases a with ⟨b, s⟩
        cases b
        · dsimp only
          rw [yad_trace_eq]
          rfl
        · dsimp only
          rw [List.all_append, yad_trace_eq, hrest, pat_trace_eq,
            summarize_trace_all env _ s len _ hnottr]
          rfl

end SummarizeIt
